import Mathlib

/-!
Verification of the CSAFE protocol client library (`pm5`).

This file gives a shallow embedding of the library's core:
the frame codec (`csafe/commands.go`: `EncodeFrame`, `DecodeFrame`,
`stuffAndWrite`, `unstuffBytes`), the response parser (`ParseResponse`,
`parsePMWrapperData`), the command builders (`BuildCommand`,
`BuildPMCommand`), the transaction engine's frame extraction and
inter-frame gating (`pm5.go`: `sendCommand`), the session lifecycle
(`Connect` / `Disconnect`), and the typed command surface
(`pm5_proprietary_*.go`: the per-opcode response decoders).

Bytes are modelled as `Nat` values; Go's `byte(x)` narrowing is made
explicit as `% 256` at the places the source performs a conversion.
Fallible Go functions returning `(T, error)` become `Except Err T`.
-/

instance {ε α : Type} [DecidableEq ε] [DecidableEq α] : DecidableEq (Except ε α) := fun x y =>
  match x, y with
  | .ok a, .ok b =>
    if h : a = b then .isTrue (by rw [h]) else .isFalse (by simp [h])
  | .error a, .error b =>
    if h : a = b then .isTrue (by rw [h]) else .isFalse (by simp [h])
  | .ok _, .error _ => .isFalse (by simp)
  | .error _, .ok _ => .isFalse (by simp)

namespace Pm5

/-! ## Constants (`csafe` package, frame flags and limits) -/

def ExtendedFrameStartFlag : Nat := 0xF0
def StandardFrameStartFlag : Nat := 0xF1
def StopFrameFlag : Nat := 0xF2
def ByteStuffingFlag : Nat := 0xF3
def MaxFrameLength : Nat := 120
def MinInterframeGapMs : Nat := 50

def StatusFrameToggleMask : Nat := 0x80
def StatusPrevFrameStatusMask : Nat := 0x30
def StatusStateMask : Nat := 0x0F

def PrevFrameStatusReject : Nat := 0x10

def CmdGetPMCfg : Nat := 0x7E
def CmdGetPMData : Nat := 0x7F
def PMCmdGetWorkTime : Nat := 0xA0
def PMCmdGetBatteryLevelPercent : Nat := 0x97
def PMCmdGetErgMachineType : Nat := 0xED
def PMCmdGetDragFactor : Nat := 0xC1
def PMCmdGetErrorValue : Nat := 0xC9
def PMCmdGetRestTime : Nat := 0xCF

/-! ## Data model -/

/-- `csafe.Frame`: a CSAFE wire unit.  In Go, `Destination` and `Source`
are zero-valued for standard (non-extended) frames. -/
structure Frame where
  Extended : Bool
  Destination : Nat
  Source : Nat
  Contents : List Nat
deriving Repr, DecidableEq

/-- The structural codec errors of `csafe/commands.go`. -/
inductive Err where
  | frameTooShort
  | invalidStartFlag
  | invalidStopFlag
  | invalidChecksum
  | frameTooLong
  | invalidStuffByte
deriving Repr, DecidableEq

/-! ## Frame codec -/

/-- Embeds `stuffAndWrite` (csafe/commands.go:542): the escape expansion
of one byte, as the list of bytes it appends to the buffer. -/
def stuffByte (b : Nat) : List Nat :=
  if b = ExtendedFrameStartFlag then [ByteStuffingFlag, 0x00]
  else if b = StandardFrameStartFlag then [ByteStuffingFlag, 0x01]
  else if b = StopFrameFlag then [ByteStuffingFlag, 0x02]
  else if b = ByteStuffingFlag then [ByteStuffingFlag, 0x03]
  else [b]

/-- The stuffed encoding of a byte sequence (the contents loop of
`EncodeFrame`). -/
def stuffBytes (bs : List Nat) : List Nat :=
  (bs.map stuffByte).flatten

/-- The checksum loop of `EncodeFrame` / `DecodeFrame`: XOR of all bytes. -/
def xorBytes (bs : List Nat) : Nat :=
  bs.foldl Nat.xor 0

/-- The byte sequence built by `EncodeFrame` before its length check:
start flag, stuffed addresses when extended, stuffed contents, stuffed
checksum, stop flag. -/
def encodedBytes (f : Frame) : List Nat :=
  (if f.Extended then
      ExtendedFrameStartFlag :: (stuffByte f.Destination ++ stuffByte f.Source)
    else [StandardFrameStartFlag])
  ++ stuffBytes f.Contents ++ stuffByte (xorBytes f.Contents) ++ [StopFrameFlag]

/-- Embeds `EncodeFrame` (csafe/commands.go:292): emits `encodedBytes`,
failing with `frameTooLong` when the result exceeds `MaxFrameLength`. -/
def EncodeFrame (f : Frame) : Except Err (List Nat) :=
  if MaxFrameLength < (encodedBytes f).length then .error .frameTooLong
  else .ok (encodedBytes f)

/-- Embeds `unstuffBytes` (csafe/commands.go:562): maps `F3 00..03` back
to `F0..F3`, fails with `invalidStuffByte` on any other follower or a
trailing lone `F3`. -/
def unstuffBytes : List Nat → Except Err (List Nat)
  | [] => .ok []
  | [b] =>
    if b = ByteStuffingFlag then .error .invalidStuffByte
    else .ok [b]
  | b :: c :: rest =>
    if b = ByteStuffingFlag then
      if c = 0x00 then (unstuffBytes rest).map (ExtendedFrameStartFlag :: ·)
      else if c = 0x01 then (unstuffBytes rest).map (StandardFrameStartFlag :: ·)
      else if c = 0x02 then (unstuffBytes rest).map (StopFrameFlag :: ·)
      else if c = 0x03 then (unstuffBytes rest).map (ByteStuffingFlag :: ·)
      else .error .invalidStuffByte
    else (unstuffBytes (c :: rest)).map (b :: ·)

/-- The interior of a received frame: everything strictly between the
start and stop flags (`data[1 : len(data)-1]` in `DecodeFrame`). -/
def frameInterior (data : List Nat) : List Nat :=
  (data.drop 1).dropLast

/-- The tail of `DecodeFrame` after unstuffing: length checks, address
extraction for extended frames, checksum verification.  The source
checks `len < 1` first and then `len < 3` for extended frames; both
yield `frameTooShort`, so the extended branch merges them into one
`len < 3` test with the identical error. -/
def decodeUnstuffed : Bool → List Nat → Except Err Frame
  | true, u =>
    if u.length < 3 then .error .frameTooShort
    else
      let contents := (u.drop 2).dropLast
      if xorBytes contents ≠ u.getLastD 0 then .error .invalidChecksum
      else .ok ⟨true, u.getD 0 0, u.getD 1 0, contents⟩
  | false, u =>
    if u.length < 1 then .error .frameTooShort
    else
      let contents := u.dropLast
      if xorBytes contents ≠ u.getLastD 0 then .error .invalidChecksum
      else .ok ⟨false, 0, 0, contents⟩

/-- Stop-flag check and unstuffing step of `DecodeFrame`. -/
def decodeTail (extended : Bool) (data : List Nat) : Except Err Frame :=
  if data.getLastD 0 ≠ StopFrameFlag then .error .invalidStopFlag
  else
    match unstuffBytes (frameInterior data) with
    | .error e => .error e
    | .ok u => decodeUnstuffed extended u

/-- Embeds `DecodeFrame` (csafe/commands.go:331): rejects inputs shorter
than 4 bytes, dispatches on the start flag, checks the stop flag,
unstuffs the interior, and verifies the checksum. -/
def DecodeFrame (data : List Nat) : Except Err Frame :=
  if data.length < 4 then .error .frameTooShort
  else if data.headD 0 = ExtendedFrameStartFlag then decodeTail true data
  else if data.headD 0 = StandardFrameStartFlag then decodeTail false data
  else .error .invalidStartFlag

example : EncodeFrame ⟨false, 0, 0, []⟩ = .ok [0xF1, 0x00, 0xF2] := by decide
example : EncodeFrame ⟨false, 0, 0, [0x80]⟩ = .ok [0xF1, 0x80, 0x80, 0xF2] := by decide
example : EncodeFrame ⟨false, 0, 0, [0xF1, 0x00]⟩ =
    .ok [0xF1, 0xF3, 0x01, 0x00, 0xF3, 0x01, 0xF2] := by decide
example : DecodeFrame [0xF1, 0x00, 0xF2] = .error .frameTooShort := by decide
example : DecodeFrame [0xF1, 0x80, 0x80, 0xF2] = .ok ⟨false, 0, 0, [0x80]⟩ := by decide
example : DecodeFrame [0xF1, 0x80, 0x00, 0xF2] = .error .invalidChecksum := by decide

/-! ## Stuffing inversion -/

theorem unstuff_stuffByte (b : Nat) (rest : List Nat) :
    unstuffBytes (stuffByte b ++ rest) = (unstuffBytes rest).map (b :: ·) := by
  by_cases h0 : b = ExtendedFrameStartFlag
  · subst h0
    simp [stuffByte, unstuffBytes, ExtendedFrameStartFlag, StandardFrameStartFlag,
      StopFrameFlag, ByteStuffingFlag]
  by_cases h1 : b = StandardFrameStartFlag
  · subst h1
    simp [stuffByte, unstuffBytes, ExtendedFrameStartFlag, StandardFrameStartFlag,
      StopFrameFlag, ByteStuffingFlag]
  by_cases h2 : b = StopFrameFlag
  · subst h2
    simp [stuffByte, unstuffBytes, ExtendedFrameStartFlag, StandardFrameStartFlag,
      StopFrameFlag, ByteStuffingFlag]
  by_cases h3 : b = ByteStuffingFlag
  · subst h3
    simp [stuffByte, unstuffBytes, ExtendedFrameStartFlag, StandardFrameStartFlag,
      StopFrameFlag, ByteStuffingFlag]
  · rw [stuffByte, if_neg h0, if_neg h1, if_neg h2, if_neg h3]
    cases rest with
    | nil => simp [unstuffBytes, h3, Except.map]
    | cons c r => simp [unstuffBytes, h3, Except.map]

theorem unstuff_stuffBytes (bs rest : List Nat) :
    unstuffBytes (stuffBytes bs ++ rest) = (unstuffBytes rest).map (bs ++ ·) := by
  induction bs with
  | nil => cases h : unstuffBytes rest <;> simp [stuffBytes, h, Except.map]
  | cons b bs ih =>
    have hcons : stuffBytes (b :: bs) = stuffByte b ++ stuffBytes bs := by
      simp [stuffBytes]
    rw [hcons, List.append_assoc, unstuff_stuffByte, ih]
    cases h : unstuffBytes rest <;> simp [Except.map]

theorem unstuff_stuffByte_nil (c : Nat) : unstuffBytes (stuffByte c) = .ok [c] := by
  have h := unstuff_stuffByte c []
  simpa [unstuffBytes] using h

theorem unstuff_body (bs : List Nat) (c : Nat) :
    unstuffBytes (stuffBytes bs ++ stuffByte c) = .ok (bs ++ [c]) := by
  rw [unstuff_stuffBytes, unstuff_stuffByte_nil]
  rfl

theorem unstuff_body_ext (d s : Nat) (bs : List Nat) (c : Nat) :
    unstuffBytes (stuffByte d ++ (stuffByte s ++ (stuffBytes bs ++ stuffByte c))) =
      .ok (d :: s :: (bs ++ [c])) := by
  rw [unstuff_stuffByte, unstuff_stuffByte, unstuff_body]
  rfl

/-! ## Decoding an encoded frame -/

theorem encodeFrame_ok {f : Frame} {e : List Nat} (h : EncodeFrame f = .ok e) :
    e = encodedBytes f := by
  rw [EncodeFrame] at h
  by_cases hc : MaxFrameLength < (encodedBytes f).length
  · rw [if_pos hc] at h
    exact absurd h (by simp)
  · rw [if_neg hc] at h
    exact (Except.ok.inj h).symm

theorem stuffByte_length_pos (b : Nat) : 1 ≤ (stuffByte b).length := by
  rw [stuffByte]
  split
  · simp
  split
  · simp
  split
  · simp
  split <;> simp

theorem DecodeFrame_std (data : List Nat) (h4 : ¬ data.length < 4)
    (hh : data.headD 0 = StandardFrameStartFlag) :
    DecodeFrame data = decodeTail false data := by
  rw [DecodeFrame, if_neg h4, hh]
  rw [if_neg (by decide : ¬ (StandardFrameStartFlag = ExtendedFrameStartFlag))]
  rw [if_pos (rfl : StandardFrameStartFlag = StandardFrameStartFlag)]

theorem DecodeFrame_ext (data : List Nat) (h4 : ¬ data.length < 4)
    (hh : data.headD 0 = ExtendedFrameStartFlag) :
    DecodeFrame data = decodeTail true data := by
  rw [DecodeFrame, if_neg h4, hh]
  rw [if_pos (rfl : ExtendedFrameStartFlag = ExtendedFrameStartFlag)]

theorem decodeTail_shape (ext : Bool) (start : Nat) (interior : List Nat) :
    decodeTail ext (start :: (interior ++ [StopFrameFlag])) =
      match unstuffBytes interior with
      | .error e => .error e
      | .ok u => decodeUnstuffed ext u := by
  have hstop : (start :: (interior ++ [StopFrameFlag])).getLastD 0 = StopFrameFlag := by
    rw [List.getLastD_cons, List.getLastD_concat]
  rw [decodeTail, if_neg (by rw [hstop]; exact fun h => h rfl)]
  rw [frameInterior]
  simp only [List.drop_succ_cons, List.drop_zero, List.dropLast_concat]

theorem decodeUnstuffed_std (C : List Nat) :
    decodeUnstuffed false (C ++ [xorBytes C]) = .ok ⟨false, 0, 0, C⟩ := by
  simp only [decodeUnstuffed]
  rw [if_neg (by simp)]
  rw [List.dropLast_concat, List.getLastD_concat]
  rw [if_neg (fun h => h rfl)]

theorem decodeUnstuffed_ext (d s : Nat) (C : List Nat) :
    decodeUnstuffed true (d :: s :: (C ++ [xorBytes C])) = .ok ⟨true, d, s, C⟩ := by
  have hlast : (d :: s :: (C ++ [xorBytes C])).getLastD 0 = xorBytes C := by
    rw [List.getLastD_cons, List.getLastD_cons, List.getLastD_concat]
  simp only [decodeUnstuffed]
  rw [if_neg (by simp)]
  rw [hlast]
  simp only [List.drop_succ_cons, List.drop_zero, List.dropLast_concat]
  rw [if_neg (fun h => h rfl)]
  rfl

theorem stuffBytes_length_pos {C : List Nat} (h : C ≠ []) : 1 ≤ (stuffBytes C).length := by
  cases C with
  | nil => exact absurd rfl h
  | cons c C' =>
    have h1 := stuffByte_length_pos c
    simp only [stuffBytes, List.map_cons, List.flatten_cons, List.length_append]
    omega

/-! ## C1 -/

/-- C1 (amended): for every well-formed frame (standard frames carry the
Go zero values in the unused address fields) whose encoding `EncodeFrame`
accepts, and whose encoded form is at least 4 bytes long — equivalently,
the frame is extended or has non-empty contents — `DecodeFrame` inverts
`EncodeFrame` exactly.  The 3-byte minimal standard frame is excluded:
`DecodeFrame` rejects every input shorter than 4 bytes (see
`C1_counterexample`). -/
theorem C1_encode_decode_roundtrip (f : Frame) (e : List Nat)
    (henc : EncodeFrame f = .ok e)
    (haddr : f.Extended = false → f.Destination = 0 ∧ f.Source = 0)
    (hmin : f.Extended = true ∨ f.Contents ≠ []) :
    DecodeFrame e = .ok f := by
  have he := encodeFrame_ok henc
  cases hx : f.Extended with
  | false =>
    obtain ⟨hd, hs⟩ := haddr hx
    have hC : f.Contents ≠ [] := by
      rcases hmin with h | h
      · rw [hx] at h; exact absurd h (by simp)
      · exact h
    have hshape : encodedBytes f =
        StandardFrameStartFlag ::
          ((stuffBytes f.Contents ++ stuffByte (xorBytes f.Contents)) ++ [StopFrameFlag]) := by
      simp [encodedBytes, hx, List.append_assoc]
    have h1 := stuffBytes_length_pos hC
    have h2 := stuffByte_length_pos (xorBytes f.Contents)
    have h4 : ¬ ((StandardFrameStartFlag ::
        ((stuffBytes f.Contents ++ stuffByte (xorBytes f.Contents)) ++ [StopFrameFlag])).length
          < 4) := by
      simp only [List.length_cons, List.length_append, List.length_singleton]
      omega
    rw [he, hshape, DecodeFrame_std _ h4 List.headD_cons, decodeTail_shape, unstuff_body]
    show decodeUnstuffed false (f.Contents ++ [xorBytes f.Contents]) = .ok f
    rw [decodeUnstuffed_std]
    cases f with
    | mk fE fD fS fC =>
      simp only at hx hd hs
      rw [hx, hd, hs]
  | true =>
    have hshape : encodedBytes f =
        ExtendedFrameStartFlag ::
          ((stuffByte f.Destination ++ (stuffByte f.Source ++
            (stuffBytes f.Contents ++ stuffByte (xorBytes f.Contents)))) ++ [StopFrameFlag]) := by
      simp [encodedBytes, hx, List.append_assoc]
    have h1 := stuffByte_length_pos f.Destination
    have h2 := stuffByte_length_pos f.Source
    have h3 := stuffByte_length_pos (xorBytes f.Contents)
    have h4 : ¬ ((ExtendedFrameStartFlag ::
        ((stuffByte f.Destination ++ (stuffByte f.Source ++
          (stuffBytes f.Contents ++ stuffByte (xorBytes f.Contents)))) ++ [StopFrameFlag])).length
          < 4) := by
      simp only [List.length_cons, List.length_append, List.length_singleton]
      omega
    rw [he, hshape, DecodeFrame_ext _ h4 List.headD_cons, decodeTail_shape, unstuff_body_ext]
    show decodeUnstuffed true
        (f.Destination :: f.Source :: (f.Contents ++ [xorBytes f.Contents])) = .ok f
    rw [decodeUnstuffed_ext]
    cases f with
    | mk fE fD fS fC =>
      simp only at hx
      rw [hx]

/-- C1 counterexample: the claim asserts that the minimal standard frame
(empty contents) encodes to the three bytes `F1 00 F2` and decodes back;
in the code `DecodeFrame` rejects every input shorter than 4 bytes, so
decoding fails with `frameTooShort` instead of succeeding. -/
theorem C1_counterexample :
    EncodeFrame ⟨false, 0, 0, []⟩ = .ok [0xF1, 0x00, 0xF2] ∧
      DecodeFrame [0xF1, 0x00, 0xF2] = .error .frameTooShort :=
  ⟨rfl, rfl⟩

/-- Witness for C1: the round-trip theorem applied to the concrete
standard frame with contents `[0x80]` (a GetStatus request). -/
theorem C1_witness :
    DecodeFrame [0xF1, 0x80, 0x80, 0xF2] = .ok ⟨false, 0, 0, [0x80]⟩ :=
  C1_encode_decode_roundtrip ⟨false, 0, 0, [0x80]⟩ [0xF1, 0x80, 0x80, 0xF2]
    rfl (fun _ => ⟨rfl, rfl⟩) (.inr (by simp))

/-! ## C5 -/

/-- The escape discipline claimed for encoded frame interiors: no raw
occurrence of `0xF0`, `0xF1` or `0xF2`, and `0xF3` only as the first
byte of an escape pair whose second byte is `0x00`–`0x03`. -/
def wellStuffedB : List Nat → Bool
  | [] => true
  | b :: rest =>
    if b = ByteStuffingFlag then
      match rest with
      | [] => false
      | c :: rest2 => decide (c < 4) && wellStuffedB rest2
    else
      decide (b ≠ ExtendedFrameStartFlag) && (decide (b ≠ StandardFrameStartFlag) &&
        (decide (b ≠ StopFrameFlag) && wellStuffedB rest))

theorem wellStuffed_stuffByte (b : Nat) (l : List Nat) :
    wellStuffedB (stuffByte b ++ l) = wellStuffedB l := by
  by_cases h0 : b = ExtendedFrameStartFlag
  · subst h0
    simp [stuffByte, wellStuffedB, ExtendedFrameStartFlag, ByteStuffingFlag]
  by_cases h1 : b = StandardFrameStartFlag
  · subst h1
    simp [stuffByte, wellStuffedB, ExtendedFrameStartFlag, StandardFrameStartFlag,
      StopFrameFlag, ByteStuffingFlag]
  by_cases h2 : b = StopFrameFlag
  · subst h2
    simp [stuffByte, wellStuffedB, ExtendedFrameStartFlag, StandardFrameStartFlag,
      StopFrameFlag, ByteStuffingFlag]
  by_cases h3 : b = ByteStuffingFlag
  · subst h3
    simp [stuffByte, wellStuffedB, ExtendedFrameStartFlag, StandardFrameStartFlag,
      StopFrameFlag, ByteStuffingFlag]
  · rw [stuffByte, if_neg h0, if_neg h1, if_neg h2, if_neg h3]
    cases l with
    | nil => simp [wellStuffedB, h0, h1, h2, h3]
    | cons c r => simp [wellStuffedB, h0, h1, h2, h3]

theorem wellStuffed_stuffBytes (bs : List Nat) (l : List Nat) :
    wellStuffedB (stuffBytes bs ++ l) = wellStuffedB l := by
  induction bs with
  | nil => simp [stuffBytes]
  | cons b bs ih =>
    have hcons : stuffBytes (b :: bs) = stuffByte b ++ stuffBytes bs := by
      simp [stuffBytes]
    rw [hcons, List.append_assoc, wellStuffed_stuffByte, ih]

theorem wellStuffed_no_stop : ∀ l, wellStuffedB l = true → StopFrameFlag ∉ l
  | [], _ => by simp
  | b :: rest, h => by
    by_cases h3 : b = ByteStuffingFlag
    · subst h3
      cases rest with
      | nil => simp [wellStuffedB] at h
      | cons c r2 =>
        simp only [wellStuffedB, if_pos rfl, eq_self_iff_true, if_true, Bool.and_eq_true,
          decide_eq_true_eq] at h
        have hr := wellStuffed_no_stop r2 h.2
        simp only [List.mem_cons]
        push_neg
        refine ⟨by decide, ?_, hr⟩
        have hc := h.1
        simp only [StopFrameFlag]
        omega
    · cases rest with
      | nil =>
        simp only [wellStuffedB, if_neg h3, Bool.and_eq_true, decide_eq_true_eq] at h
        simp only [List.mem_cons, List.not_mem_nil, or_false]
        exact fun he => h.2.2.1 he.symm
      | cons c r =>
        simp only [wellStuffedB, if_neg h3, Bool.and_eq_true, decide_eq_true_eq] at h
        have hr := wellStuffed_no_stop (c :: r) h.2.2.2
        simp only [List.mem_cons]
        push_neg
        have hcr : StopFrameFlag ≠ c ∧ StopFrameFlag ∉ r := by
          simp only [List.mem_cons] at hr
          push_neg at hr
          exact hr
        exact ⟨fun he => h.2.2.1 he.symm, hcr.1, hcr.2⟩

/-- C5 (confirmed): every encoding accepted by `EncodeFrame` is the
start flag followed by a well-stuffed interior and a single terminating
stop byte: the interior has no raw `0xF0`/`0xF1`/`0xF2`, has `0xF3`
only as the head of an escape pair with second byte `0x00`–`0x03`, and
`0xF2` occurs exactly once in the whole encoding, at its end. -/
theorem C5_encoded_frame_stuffing (f : Frame) (e : List Nat)
    (h : EncodeFrame f = .ok e) :
    ∃ mid, e = (if f.Extended then ExtendedFrameStartFlag else StandardFrameStartFlag) ::
        (mid ++ [StopFrameFlag]) ∧
      wellStuffedB mid = true ∧
      e.count StopFrameFlag = 1 := by
  have he := encodeFrame_ok h
  cases hx : f.Extended with
  | false =>
    refine ⟨stuffBytes f.Contents ++ stuffByte (xorBytes f.Contents), ?_, ?_, ?_⟩
    · rw [he]
      simp [encodedBytes, hx, List.append_assoc]
    · rw [wellStuffed_stuffBytes, ← List.append_nil (stuffByte _), wellStuffed_stuffByte]
      rfl
    · have hws : wellStuffedB (stuffBytes f.Contents ++ stuffByte (xorBytes f.Contents))
          = true := by
        rw [wellStuffed_stuffBytes, ← List.append_nil (stuffByte _), wellStuffed_stuffByte]
        rfl
      have hmid := List.count_eq_zero.mpr (wellStuffed_no_stop _ hws)
      rw [he]
      have hshape : encodedBytes f = StandardFrameStartFlag ::
          ((stuffBytes f.Contents ++ stuffByte (xorBytes f.Contents)) ++ [StopFrameFlag]) := by
        simp [encodedBytes, hx, List.append_assoc]
      rw [hshape]
      rw [List.count_cons, List.count_append, hmid]
      simp [StandardFrameStartFlag, StopFrameFlag]
  | true =>
    refine ⟨stuffByte f.Destination ++ (stuffByte f.Source ++
      (stuffBytes f.Contents ++ stuffByte (xorBytes f.Contents))), ?_, ?_, ?_⟩
    · rw [he]
      simp [encodedBytes, hx, List.append_assoc]
    · rw [wellStuffed_stuffByte, wellStuffed_stuffByte, wellStuffed_stuffBytes,
        ← List.append_nil (stuffByte _), wellStuffed_stuffByte]
      rfl
    · have hws : wellStuffedB (stuffByte f.Destination ++ (stuffByte f.Source ++
          (stuffBytes f.Contents ++ stuffByte (xorBytes f.Contents)))) = true := by
        rw [wellStuffed_stuffByte, wellStuffed_stuffByte, wellStuffed_stuffBytes,
          ← List.append_nil (stuffByte _), wellStuffed_stuffByte]
        rfl
      have hmid := List.count_eq_zero.mpr (wellStuffed_no_stop _ hws)
      rw [he]
      have hshape : encodedBytes f = ExtendedFrameStartFlag ::
          ((stuffByte f.Destination ++ (stuffByte f.Source ++
            (stuffBytes f.Contents ++ stuffByte (xorBytes f.Contents)))) ++ [StopFrameFlag]) := by
        simp [encodedBytes, hx, List.append_assoc]
      rw [hshape]
      rw [List.count_cons, List.count_append, hmid]
      simp [ExtendedFrameStartFlag, StopFrameFlag]

/-- Witness for C5: the stuffing invariant instantiated on the frame
whose contents are the four sentinel bytes `F0 F1 F2 F3`. -/
theorem C5_witness :
    ∃ mid, [0xF1, 0xF3, 0x00, 0xF3, 0x01, 0xF3, 0x02, 0xF3, 0x03, 0x00, 0xF2] =
        (if (false : Bool) then ExtendedFrameStartFlag else StandardFrameStartFlag) ::
          (mid ++ [StopFrameFlag]) ∧
      wellStuffedB mid = true ∧
      List.count StopFrameFlag
        [0xF1, 0xF3, 0x00, 0xF3, 0x01, 0xF3, 0x02, 0xF3, 0x03, 0x00, 0xF2] = 1 :=
  C5_encoded_frame_stuffing ⟨false, 0, 0, [0xF0, 0xF1, 0xF2, 0xF3]⟩
    [0xF1, 0xF3, 0x00, 0xF3, 0x01, 0xF3, 0x02, 0xF3, 0x03, 0x00, 0xF2] rfl

/-! ## C6 -/

/-- C6 (confirmed): `DecodeFrame` verifies that the last unstuffed byte
equals the XOR of the unstuffed contents (addresses excluded).  First
conjunct: every successful decode satisfies the equality.  Second and
third conjuncts (standard and extended): whenever the frame is
structurally valid up to the checksum comparison but the recomputed XOR
differs from the received byte, decoding fails with `invalidChecksum`.
In particular `F1 80 00 F2` fails this way (see `C6_witness`). -/
theorem C6_decode_checksum :
    (∀ data f, DecodeFrame data = .ok f →
      ∃ u, unstuffBytes (frameInterior data) = .ok u ∧
        u.getLastD 0 = xorBytes f.Contents) ∧
    (∀ data u, ¬ data.length < 4 → data.headD 0 = StandardFrameStartFlag →
      data.getLastD 0 = StopFrameFlag →
      unstuffBytes (frameInterior data) = .ok u → ¬ u.length < 1 →
      xorBytes u.dropLast ≠ u.getLastD 0 →
      DecodeFrame data = .error .invalidChecksum) ∧
    (∀ data u, ¬ data.length < 4 → data.headD 0 = ExtendedFrameStartFlag →
      data.getLastD 0 = StopFrameFlag →
      unstuffBytes (frameInterior data) = .ok u → ¬ u.length < 3 →
      xorBytes ((u.drop 2).dropLast) ≠ u.getLastD 0 →
      DecodeFrame data = .error .invalidChecksum) := by
  refine ⟨?_, ?_, ?_⟩
  · intro data f h
    rw [DecodeFrame] at h
    by_cases h4 : data.length < 4
    · rw [if_pos h4] at h
      exact absurd h (by simp)
    rw [if_neg h4] at h
    by_cases hext : data.headD 0 = ExtendedFrameStartFlag
    · rw [if_pos hext, decodeTail] at h
      by_cases hstop : data.getLastD 0 ≠ StopFrameFlag
      · rw [if_pos hstop] at h
        exact absurd h (by simp)
      rw [if_neg hstop] at h
      cases hu : unstuffBytes (frameInterior data) with
      | error e => rw [hu] at h; exact absurd h (by simp)
      | ok u =>
        rw [hu] at h
        refine ⟨u, rfl, ?_⟩
        simp only [decodeUnstuffed] at h
        by_cases hl : u.length < 3
        · rw [if_pos hl] at h
          exact absurd h (by simp)
        rw [if_neg hl] at h
        by_cases hck : xorBytes ((u.drop 2).dropLast) ≠ u.getLastD 0
        · rw [if_pos hck] at h
          exact absurd h (by simp)
        · rw [if_neg hck] at h
          have hf := Except.ok.inj h
          rw [← hf]
          simpa using (not_not.mp hck).symm
    · rw [if_neg hext] at h
      by_cases hstd : data.headD 0 = StandardFrameStartFlag
      · rw [if_pos hstd, decodeTail] at h
        by_cases hstop : data.getLastD 0 ≠ StopFrameFlag
        · rw [if_pos hstop] at h
          exact absurd h (by simp)
        rw [if_neg hstop] at h
        cases hu : unstuffBytes (frameInterior data) with
        | error e => rw [hu] at h; exact absurd h (by simp)
        | ok u =>
          rw [hu] at h
          refine ⟨u, rfl, ?_⟩
          simp only [decodeUnstuffed] at h
          by_cases hl : u.length < 1
          · rw [if_pos hl] at h
            exact absurd h (by simp)
          rw [if_neg hl] at h
          by_cases hck : xorBytes u.dropLast ≠ u.getLastD 0
          · rw [if_pos hck] at h
            exact absurd h (by simp)
          · rw [if_neg hck] at h
            have hf := Except.ok.inj h
            rw [← hf]
            simpa using (not_not.mp hck).symm
      · rw [if_neg hstd] at h
        exact absurd h (by simp)
  · intro data u h4 hstd hstop hu hl hck
    rw [DecodeFrame_std data h4 hstd, decodeTail, if_neg (by rw [hstop]; exact fun h => h rfl),
      hu]
    show decodeUnstuffed false u = .error .invalidChecksum
    simp only [decodeUnstuffed]
    rw [if_neg hl, if_pos hck]
  · intro data u h4 hext hstop hu hl hck
    rw [DecodeFrame_ext data h4 hext, decodeTail, if_neg (by rw [hstop]; exact fun h => h rfl),
      hu]
    show decodeUnstuffed true u = .error .invalidChecksum
    simp only [decodeUnstuffed]
    rw [if_neg hl, if_pos hck]

/-- Witness for C6: the standard-frame mismatch branch applied to the
bytes `F1 80 00 F2` — contents `[0x80]`, expected checksum `0x80`,
received `0x00` — which decodes to `invalidChecksum`. -/
theorem C6_witness :
    DecodeFrame [0xF1, 0x80, 0x00, 0xF2] = .error .invalidChecksum :=
  C6_decode_checksum.2.1 [0xF1, 0x80, 0x00, 0xF2] [0x80, 0x00]
    (by decide) rfl rfl rfl (by decide) (by decide)

/-! ## Response parser -/

/-- `csafe.CommandResponse`: one parsed record of a frame payload.
`PMResponses` is non-empty only when `Command` is a PM wrapper. -/
structure CommandResponse where
  Command : Nat
  ByteCount : Nat
  Data : List Nat
  PMResponses : List CommandResponse

/-- `csafe.Response`: a parsed frame payload. -/
structure Response where
  Status : Nat
  FrameToggle : Bool
  PrevFrameStatus : Nat
  StateMachine : Nat
  CommandData : List CommandResponse

/-- Embeds `isPMWrapper` (csafe/commands.go:459). -/
def isPMWrapper (cmd : Nat) : Bool :=
  cmd == 0x76 || cmd == 0x77 || cmd == 0x7E || cmd == 0x7F

/-- Embeds `parsePMWrapperData` (csafe/commands.go:465): the flat
`[cmd][byteCount][data...]` walker used inside PM wrappers.  A record
whose declared count exceeds the remaining bytes is recorded with the
available bytes and ends the walk; a record with no count byte is
recorded with count 0 and no data. -/
def parsePMWrapperData : List Nat → List CommandResponse
  | [] => []
  | [c] => [⟨c, 0, [], []⟩]
  | c :: n :: rest =>
    if n = 0 then ⟨c, 0, [], []⟩ :: parsePMWrapperData rest
    else if rest.length < n then [⟨c, n, rest, []⟩]
    else ⟨c, n, rest.take n, []⟩ :: parsePMWrapperData (rest.drop n)
termination_by l => l.length
decreasing_by
  · simp only [List.length_cons]; omega
  · simp only [List.length_cons, List.length_drop]; omega

/-- Embeds the command-walking loop of `ParseResponse`
(csafe/commands.go:413-453): same walker, but a PM-wrapper record with
non-empty data gets the nested `parsePMWrapperData` parse attached. -/
def parseCommandData : List Nat → List CommandResponse
  | [] => []
  | [c] => [⟨c, 0, [], []⟩]
  | c :: n :: rest =>
    if n = 0 then ⟨c, 0, [], []⟩ :: parseCommandData rest
    else if rest.length < n then
      [⟨c, n, rest, if isPMWrapper c && !rest.isEmpty then parsePMWrapperData rest else []⟩]
    else
      ⟨c, n, rest.take n,
        if isPMWrapper c && !(rest.take n).isEmpty then parsePMWrapperData (rest.take n)
        else []⟩ :: parseCommandData (rest.drop n)
termination_by l => l.length
decreasing_by
  · simp only [List.length_cons]; omega
  · simp only [List.length_cons, List.length_drop]; omega

/-- Embeds `ParseResponse` (csafe/commands.go:399): status-byte
decomposition followed by the command walk. -/
def ParseResponse (contents : List Nat) : Except Err Response :=
  match contents with
  | [] => .error .frameTooShort
  | s :: rest =>
    .ok ⟨s, decide (s &&& StatusFrameToggleMask ≠ 0), s &&& StatusPrevFrameStatusMask,
      s &&& StatusStateMask, parseCommandData rest⟩

/-! ## C7 -/

/-- C7 (confirmed): the parser never fails on truncated command records.
For every non-empty contents sequence `ParseResponse` returns a parsed
response; a record whose declared byte count exceeds the remaining
bytes is recorded with the truncated available bytes and ends the walk;
a record whose count byte is absent is recorded with count 0 and no
data and ends the walk; and the nested wrapper walker behaves the same
way. -/
theorem C7_parser_truncation_tolerance :
    (∀ contents : List Nat, contents ≠ [] → ∃ r, ParseResponse contents = .ok r) ∧
    (∀ c : Nat, parseCommandData [c] = [⟨c, 0, [], []⟩]) ∧
    (∀ c n rest, rest.length < n →
      parseCommandData (c :: n :: rest) =
        [⟨c, n, rest,
          if isPMWrapper c && !rest.isEmpty then parsePMWrapperData rest else []⟩]) ∧
    (∀ c : Nat, parsePMWrapperData [c] = [⟨c, 0, [], []⟩]) ∧
    (∀ c n rest, rest.length < n →
      parsePMWrapperData (c :: n :: rest) = [⟨c, n, rest, []⟩]) := by
  refine ⟨?_, ?_, ?_, ?_, ?_⟩
  · intro contents h
    cases contents with
    | nil => exact absurd rfl h
    | cons s rest => exact ⟨_, rfl⟩
  · intro c
    simp [parseCommandData]
  · intro c n rest hlt
    have hn : ¬ n = 0 := by omega
    rw [parseCommandData, if_neg hn, if_pos hlt]
  · intro c
    simp [parsePMWrapperData]
  · intro c n rest hlt
    have hn : ¬ n = 0 := by omega
    rw [parsePMWrapperData, if_neg hn, if_pos hlt]

/-- Witness for C7: concrete instances — parsing the contents
`[0x30, 0x20]` (truncated record, count byte absent) succeeds, and a
record declaring 5 data bytes with only 2 remaining keeps the 2. -/
theorem C7_witness :
    (∃ r, ParseResponse [0x30, 0x20] = .ok r) ∧
    parseCommandData [0x20, 5, 1, 2] = [⟨0x20, 5, [1, 2], []⟩] ∧
    parsePMWrapperData [0xC1, 5, 1, 2] = [⟨0xC1, 5, [1, 2], []⟩] := by
  refine ⟨C7_parser_truncation_tolerance.1 [0x30, 0x20] (by simp), ?_,
    C7_parser_truncation_tolerance.2.2.2.2 0xC1 5 [1, 2] (by simp)⟩
  have h := C7_parser_truncation_tolerance.2.2.1 0x20 5 [1, 2] (by simp)
  simpa [isPMWrapper] using h

/-! ## Command builders and C10 -/

/-- Embeds `BuildCommand` (csafe/commands.go:507): short form for a
high-bit opcode with no data, else `[cmd, byte(len(data)), data...]`.
Go's `byte(len(data))` narrowing is the explicit `% 256`. -/
def BuildCommand (cmd : Nat) (data : List Nat) : List Nat :=
  if cmd &&& 0x80 ≠ 0 ∧ data = [] then [cmd]
  else cmd :: (data.length % 256) :: data

/-- Embeds `BuildPMCommand` (csafe/commands.go:521):
`[wrapper, byte(totalSize), inner commands...]`; the length byte is the
total size of the concatenated inner commands narrowed to one byte. -/
def BuildPMCommand (wrapper : Nat) (commands : List (List Nat)) : List Nat :=
  wrapper :: (((commands.map List.length).sum) % 256) :: commands.flatten

/-- C10 (confirmed): the builders store declared lengths in a single
byte with silent wrap-around: `BuildPMCommand`'s wrapper length byte is
always the total inner length mod 256 (so it equals the total only for
totals up to 255, and no error is reported — the builder is a total
function into a plain byte list); `BuildCommand`'s data-length byte is
`len(data) % 256` whenever more than 255 data bytes are supplied, and
then differs from the true length. -/
theorem C10_builder_length_wraparound :
    (∀ wrapper commands, (BuildPMCommand wrapper commands).getD 1 0 =
      ((commands.map List.length).sum) % 256) ∧
    (∀ wrapper commands, (commands.map List.length).sum ≤ 255 →
      (BuildPMCommand wrapper commands).getD 1 0 = (commands.map List.length).sum) ∧
    (∀ wrapper commands, 255 < (commands.map List.length).sum →
      (BuildPMCommand wrapper commands).getD 1 0 ≠ (commands.map List.length).sum) ∧
    (∀ cmd data, 255 < data.length →
      (BuildCommand cmd data).getD 1 0 = data.length % 256 ∧
      (BuildCommand cmd data).getD 1 0 ≠ data.length) := by
  refine ⟨?_, ?_, ?_, ?_⟩
  · intro w cs
    simp [BuildPMCommand]
  · intro w cs h
    simp only [BuildPMCommand, List.getD_cons_succ, List.getD_cons_zero]
    omega
  · intro w cs h
    simp only [BuildPMCommand, List.getD_cons_succ, List.getD_cons_zero]
    have := Nat.mod_lt ((cs.map List.length).sum) (show 0 < 256 by decide)
    omega
  · intro cmd data h
    have hne : data ≠ [] := by
      intro he
      rw [he] at h
      simp at h
    rw [BuildCommand, if_neg (fun hc => hne hc.2)]
    have := Nat.mod_lt data.length (show 0 < 256 by decide)
    refine ⟨by simp, ?_⟩
    simp only [List.getD_cons_succ, List.getD_cons_zero]
    omega

/-- Witness for C10: a wrapper holding two one-byte commands stores 2;
a long command with 300 data bytes stores `300 % 256 = 44`. -/
theorem C10_witness :
    (BuildPMCommand 0x7F [[0xB3], [0xC1]]).getD 1 0 = 2 ∧
    (BuildCommand 0x20 (List.replicate 300 0)).getD 1 0 =
      (List.replicate 300 (0 : Nat)).length % 256 ∧
    (BuildCommand 0x20 (List.replicate 300 0)).getD 1 0 ≠ (List.replicate 300 0).length := by
  have h2 : (255 : Nat) < (List.replicate 300 (0 : Nat)).length := by
    rw [List.length_replicate]
    norm_num
  refine ⟨?_, (C10_builder_length_wraparound.2.2.2 0x20 _ h2).1,
    (C10_builder_length_wraparound.2.2.2 0x20 _ h2).2⟩
  have h := C10_builder_length_wraparound.2.1 0x7F [[0xB3], [0xC1]] (by simp)
  simpa using h

/-! ## Command surface -/

/-- The error values of the surface layer (`pm5.go:15`). -/
inductive PMErr where
  | notConnected
  | invalidResponse
  | commandFailed
deriving Repr, DecidableEq

/-- Embeds the response-scanning loop shared by every surface getter
(e.g. part_002:384-388): the first top-level command response whose
opcode matches and whose data has at least the expected width.  Only
`resp.CommandData` is walked; `PMResponses` is never consulted. -/
def findCmd (op width : Nat) : List CommandResponse → Option (List Nat)
  | [] => none
  | cr :: rest =>
    if cr.Command = op ∧ width ≤ cr.Data.length then some cr.Data
    else findCmd op width rest

/-- Embeds `GetDragFactor` (part_002:374) after the exchange: decode of
the located data, else `InvalidResponse`. -/
def GetDragFactor (resp : Response) : Except PMErr Nat :=
  match findCmd PMCmdGetDragFactor 1 resp.CommandData with
  | some d => .ok (d.getD 0 0)
  | none => .error .invalidResponse

/-- Embeds `GetBatteryLevel` (part_002:185). -/
def GetBatteryLevel (resp : Response) : Except PMErr Nat :=
  match findCmd PMCmdGetBatteryLevelPercent 1 resp.CommandData with
  | some d => .ok (d.getD 0 0)
  | none => .error .invalidResponse

/-- Embeds `GetErgMachineType` (part_002:205). -/
def GetErgMachineType (resp : Response) : Except PMErr Nat :=
  match findCmd PMCmdGetErgMachineType 1 resp.CommandData with
  | some d => .ok (d.getD 0 0)
  | none => .error .invalidResponse

/-- Embeds `GetRestTime` (part_002:561): assembles its two data bytes as
`uint16(d[0]) | uint16(d[1])<<8`. -/
def GetRestTime (resp : Response) : Except PMErr Nat :=
  match findCmd PMCmdGetRestTime 2 resp.CommandData with
  | some d => .ok (d.getD 0 0 ||| (d.getD 1 0) <<< 8)
  | none => .error .invalidResponse

/-- Embeds `GetErrorValue` (part_002:581): assembles its two data bytes
as `uint16(d[0])<<8 | uint16(d[1])`. -/
def GetErrorValue (resp : Response) : Except PMErr Nat :=
  match findCmd PMCmdGetErrorValue 2 resp.CommandData with
  | some d => .ok ((d.getD 0 0) <<< 8 ||| d.getD 1 0)
  | none => .error .invalidResponse

/-- Embeds `GetPMWorkTime` (part_002:249): assembles its four data
bytes as `uint32(d[0])<<24 | uint32(d[1])<<16 | uint32(d[2])<<8 |
uint32(d[3])`. -/
def GetPMWorkTime (resp : Response) : Except PMErr Nat :=
  match findCmd PMCmdGetWorkTime 4 resp.CommandData with
  | some d => .ok ((d.getD 0 0) <<< 24 ||| (d.getD 1 0) <<< 16 |||
      (d.getD 2 0) <<< 8 ||| d.getD 3 0)
  | none => .error .invalidResponse

/-- Whether an opcode with at least `width` data bytes appears in some
nested `PMResponses` list — what the claim says the getters consult. -/
def hasNestedCmd (op width : Nat) (crs : List CommandResponse) : Bool :=
  crs.any fun cr => cr.PMResponses.any fun n => n.Command == op && decide (width ≤ n.Data.length)

/-! ## C2 -/

/-- C2 counterexample: a parsed response whose only top-level record is
the `0x7F` wrapper, with the drag-factor opcode `0xC1` present (with
enough data) only in the wrapper's nested list.  The claim says the
operation succeeds in this case; `GetDragFactor` returns
`InvalidResponse` because the getters scan only top-level records. -/
theorem C2_counterexample :
    (ParseResponse [0x01, 0x7F, 0x03, 0xC1, 0x01, 0x87]).toOption.map
        (fun r => (GetDragFactor r, hasNestedCmd PMCmdGetDragFactor 1 r.CommandData)) =
      some (.error .invalidResponse, true) := by
  simp [ParseResponse, parseCommandData, parsePMWrapperData, GetDragFactor, findCmd,
    hasNestedCmd, isPMWrapper, PMCmdGetDragFactor, Except.toOption]

/-- C2 (amended): each vendor get operation consults only the top-level
command responses of the parsed frame: it returns the decoded value
exactly when `findCmd` locates the expected opcode with enough data
among `resp.CommandData`, and fails with `InvalidResponse` whenever no
top-level record matches — even when the opcode appears inside the
nested list attached to a vendor-wrapper response. -/
theorem C2_surface_lookup_top_level_only :
    (∀ resp, findCmd PMCmdGetDragFactor 1 resp.CommandData = none →
      GetDragFactor resp = .error .invalidResponse) ∧
    (∀ resp d, findCmd PMCmdGetDragFactor 1 resp.CommandData = some d →
      GetDragFactor resp = .ok (d.getD 0 0)) ∧
    (∀ resp, findCmd PMCmdGetBatteryLevelPercent 1 resp.CommandData = none →
      GetBatteryLevel resp = .error .invalidResponse) ∧
    (∀ resp d, findCmd PMCmdGetBatteryLevelPercent 1 resp.CommandData = some d →
      GetBatteryLevel resp = .ok (d.getD 0 0)) ∧
    (∀ resp, findCmd PMCmdGetErgMachineType 1 resp.CommandData = none →
      GetErgMachineType resp = .error .invalidResponse) ∧
    (∀ resp d, findCmd PMCmdGetErgMachineType 1 resp.CommandData = some d →
      GetErgMachineType resp = .ok (d.getD 0 0)) := by
  refine ⟨?_, ?_, ?_, ?_, ?_, ?_⟩ <;> intro resp
  · intro h; rw [GetDragFactor, h]
  · intro d h; rw [GetDragFactor, h]
  · intro h; rw [GetBatteryLevel, h]
  · intro d h; rw [GetBatteryLevel, h]
  · intro h; rw [GetErgMachineType, h]
  · intro d h; rw [GetErgMachineType, h]

/-- Witness for C2 (amended): on a response with no command records at
all, `GetDragFactor` fails with `InvalidResponse`; on one whose single
top-level record is `0xC1` with one data byte `0x87`, it returns
`0x87`. -/
theorem C2_witness :
    GetDragFactor ⟨0, false, 0, 0, []⟩ = .error .invalidResponse ∧
    GetDragFactor ⟨0, false, 0, 0, [⟨0xC1, 1, [0x87], []⟩]⟩ = .ok 0x87 := by
  refine ⟨C2_surface_lookup_top_level_only.1 ⟨0, false, 0, 0, []⟩ rfl, ?_⟩
  have h := C2_surface_lookup_top_level_only.2.1 ⟨0, false, 0, 0, [⟨0xC1, 1, [0x87], []⟩]⟩
    [0x87] (by simp [findCmd, PMCmdGetDragFactor])
  simpa using h

/-! ## C3 -/

theorem mul_two_pow_lor : ∀ (k a b : Nat), b < 2 ^ k → (a * 2 ^ k) ||| b = a * 2 ^ k + b := by
  intro k
  induction k with
  | zero =>
    intro a b hb
    have hb0 : b = 0 := by simpa using hb
    subst hb0
    simp
  | succ k ih =>
    intro a b hb
    have hb2 : b / 2 < 2 ^ k := by
      have h2 : b < 2 ^ k * 2 := by rw [← pow_succ]; exact hb
      omega
    have hq : a * 2 ^ (k + 1) = a * 2 ^ k * 2 := by rw [pow_succ, Nat.mul_assoc]
    rcases Nat.mod_two_eq_zero_or_one b with h | h
    · have hbb : Nat.bit false (b / 2) = b := by
        rw [Nat.bit_val]
        simp only [Bool.toNat_false]
        omega
      have hx : Nat.bit false (a * 2 ^ k) = a * 2 ^ (k + 1) := by
        rw [Nat.bit_val, hq]
        simp [Nat.mul_comm]
      calc a * 2 ^ (k + 1) ||| b
          = Nat.bit false (a * 2 ^ k) ||| Nat.bit false (b / 2) := by rw [hx, hbb]
        _ = Nat.bit false ((a * 2 ^ k) ||| (b / 2)) := by rw [Nat.lor_bit]; rfl
        _ = Nat.bit false (a * 2 ^ k + b / 2) := by rw [ih a (b / 2) hb2]
        _ = a * 2 ^ (k + 1) + b := by
            rw [Nat.bit_val, hq]
            simp only [Bool.toNat_false]
            generalize a * 2 ^ k = q
            omega
    · have hbb : Nat.bit true (b / 2) = b := by
        rw [Nat.bit_val]
        simp only [Bool.toNat_true]
        omega
      have hx : Nat.bit false (a * 2 ^ k) = a * 2 ^ (k + 1) := by
        rw [Nat.bit_val, hq]
        simp [Nat.mul_comm]
      calc a * 2 ^ (k + 1) ||| b
          = Nat.bit false (a * 2 ^ k) ||| Nat.bit true (b / 2) := by rw [hx, hbb]
        _ = Nat.bit true ((a * 2 ^ k) ||| (b / 2)) := by rw [Nat.lor_bit]; rfl
        _ = Nat.bit true (a * 2 ^ k + b / 2) := by rw [ih a (b / 2) hb2]
        _ = a * 2 ^ (k + 1) + b := by
            rw [Nat.bit_val, hq]
            simp only [Bool.toNat_true]
            generalize a * 2 ^ k = q
            omega

theorem byte_shift_lt (d m : Nat) (h : d < 256) : d * 2 ^ m < 2 ^ (8 + m) := by
  calc d * 2 ^ m < 256 * 2 ^ m := (Nat.mul_lt_mul_right (Nat.two_pow_pos m)).mpr h
    _ = 2 ^ (8 + m) := by rw [pow_add]; norm_num

/-- The big-endian value of two bytes, as computed by the Go shift/or
expression `d0<<8 | d1`. -/
theorem be16_eq (d0 d1 : Nat) (h1 : d1 < 256) : (d0 <<< 8) ||| d1 = 256 * d0 + d1 := by
  rw [Nat.shiftLeft_eq]
  rw [mul_two_pow_lor 8 d0 d1 (by simpa using h1)]
  ring_nf

/-- The little-endian value of two bytes, as computed by the Go
shift/or expression `d0 | d1<<8`. -/
theorem le16_eq (d0 d1 : Nat) (h0 : d0 < 256) : d0 ||| (d1 <<< 8) = d0 + 256 * d1 := by
  rw [Nat.lor_comm, Nat.shiftLeft_eq]
  rw [mul_two_pow_lor 8 d1 d0 (by simpa using h0)]
  ring_nf

theorem be32_eq (d0 d1 d2 d3 : Nat) (h1 : d1 < 256) (h2 : d2 < 256) (h3 : d3 < 256) :
    (d0 <<< 24) ||| (d1 <<< 16) ||| (d2 <<< 8) ||| d3 =
      ((d0 * 256 + d1) * 256 + d2) * 256 + d3 := by
  have e1 : (d0 <<< 24) ||| (d1 <<< 16) = d0 * 2 ^ 24 + d1 * 2 ^ 16 := by
    rw [Nat.shiftLeft_eq, Nat.shiftLeft_eq]
    rw [mul_two_pow_lor 24 d0 (d1 * 2 ^ 16) (by simpa using byte_shift_lt d1 16 h1)]
  have e2 : (d0 * 2 ^ 24 + d1 * 2 ^ 16) ||| (d2 <<< 8) =
      d0 * 2 ^ 24 + d1 * 2 ^ 16 + d2 * 2 ^ 8 := by
    rw [Nat.shiftLeft_eq]
    have hfac : d0 * 2 ^ 24 + d1 * 2 ^ 16 = (d0 * 2 ^ 8 + d1) * 2 ^ 16 := by ring
    rw [hfac, mul_two_pow_lor 16 _ _ (by simpa using byte_shift_lt d2 8 h2)]
  have e3 : (d0 * 2 ^ 24 + d1 * 2 ^ 16 + d2 * 2 ^ 8) ||| d3 =
      d0 * 2 ^ 24 + d1 * 2 ^ 16 + d2 * 2 ^ 8 + d3 := by
    have hfac : d0 * 2 ^ 24 + d1 * 2 ^ 16 + d2 * 2 ^ 8 =
        (d0 * 2 ^ 16 + d1 * 2 ^ 8 + d2) * 2 ^ 8 := by ring
    rw [hfac, mul_two_pow_lor 8 _ _ (by simpa using h3)]
  rw [e1, e2, e3]
  ring

/-- C3 counterexample: a response whose `0xCF` (RestTime) record holds
the data bytes `[0x01, 0x02]`.  The big-endian interpretation is
`0x0102 = 258`, but `GetRestTime` returns `0x0201 = 513` — it assembles
little-endian, contradicting the claim. -/
theorem C3_counterexample :
    GetRestTime ⟨0, false, 0, 0, [⟨0xCF, 2, [0x01, 0x02], []⟩]⟩ = .ok 513 ∧
    GetRestTime ⟨0, false, 0, 0, [⟨0xCF, 2, [0x01, 0x02], []⟩]⟩ ≠ .ok 258 := by
  constructor
  · rw [GetRestTime]
    rw [show findCmd PMCmdGetRestTime 2 [⟨0xCF, 2, [0x01, 0x02], []⟩] = some [0x01, 0x02] by
      simp [findCmd, PMCmdGetRestTime]]
    simp
  · rw [GetRestTime]
    rw [show findCmd PMCmdGetRestTime 2 [⟨0xCF, 2, [0x01, 0x02], []⟩] = some [0x01, 0x02] by
      simp [findCmd, PMCmdGetRestTime]]
    simp

/-- C3 (amended): `GetErrorValue` (opcode `0xC9`) and `GetPMWorkTime`
(opcode `0xA0`) assemble their located data bytes big-endian (most
significant first), but `GetRestTime` (opcode `0xCF`) assembles its two
bytes little-endian (least significant first). -/
theorem C3_vendor_read_endianness :
    (∀ resp d0 d1 rest, d0 < 256 → d1 < 256 →
      findCmd PMCmdGetErrorValue 2 resp.CommandData = some (d0 :: d1 :: rest) →
      GetErrorValue resp = .ok (256 * d0 + d1)) ∧
    (∀ resp d0 d1 d2 d3 rest, d0 < 256 → d1 < 256 → d2 < 256 → d3 < 256 →
      findCmd PMCmdGetWorkTime 4 resp.CommandData = some (d0 :: d1 :: d2 :: d3 :: rest) →
      GetPMWorkTime resp = .ok (((d0 * 256 + d1) * 256 + d2) * 256 + d3)) ∧
    (∀ resp d0 d1 rest, d0 < 256 → d1 < 256 →
      findCmd PMCmdGetRestTime 2 resp.CommandData = some (d0 :: d1 :: rest) →
      GetRestTime resp = .ok (d0 + 256 * d1)) := by
  refine ⟨?_, ?_, ?_⟩
  · intro resp d0 d1 rest h0 h1 h
    rw [GetErrorValue, h]
    simp only [List.getD_cons_zero, List.getD_cons_succ]
    rw [be16_eq d0 d1 h1]
  · intro resp d0 d1 d2 d3 rest h0 h1 h2 h3 h
    rw [GetPMWorkTime, h]
    simp only [List.getD_cons_zero, List.getD_cons_succ]
    rw [be32_eq d0 d1 d2 d3 h1 h2 h3]
  · intro resp d0 d1 rest h0 h1 h
    rw [GetRestTime, h]
    simp only [List.getD_cons_zero, List.getD_cons_succ]
    rw [le16_eq d0 d1 h0]

/-- Witness for C3 (amended): concrete byte pairs — ErrorValue data
`[0x01, 0x02]` decodes big-endian to 258, WorkTime data
`[0x00, 0x01, 0x00, 0x00]` decodes big-endian to 65536, RestTime data
`[0x01, 0x02]` decodes little-endian to 513. -/
theorem C3_witness :
    GetErrorValue ⟨0, false, 0, 0, [⟨0xC9, 2, [0x01, 0x02], []⟩]⟩ = .ok 258 ∧
    GetPMWorkTime ⟨0, false, 0, 0, [⟨0xA0, 4, [0x00, 0x01, 0x00, 0x00], []⟩]⟩ = .ok 65536 ∧
    GetRestTime ⟨0, false, 0, 0, [⟨0xCF, 2, [0x01, 0x02], []⟩]⟩ = .ok 513 := by
  refine ⟨?_, ?_, ?_⟩
  · have h := C3_vendor_read_endianness.1 ⟨0, false, 0, 0, [⟨0xC9, 2, [0x01, 0x02], []⟩]⟩
      0x01 0x02 [] (by norm_num) (by norm_num) (by simp [findCmd, PMCmdGetErrorValue])
    simpa using h
  · have h := C3_vendor_read_endianness.2.1
      ⟨0, false, 0, 0, [⟨0xA0, 4, [0x00, 0x01, 0x00, 0x00], []⟩]⟩
      0x00 0x01 0x00 0x00 [] (by norm_num) (by norm_num) (by norm_num) (by norm_num)
      (by simp [findCmd, PMCmdGetWorkTime])
    simpa using h
  · have h := C3_vendor_read_endianness.2.2 ⟨0, false, 0, 0, [⟨0xCF, 2, [0x01, 0x02], []⟩]⟩
      0x01 0x02 [] (by norm_num) (by norm_num) (by simp [findCmd, PMCmdGetRestTime])
    simpa using h

/-! ## Transaction engine: frame extraction (C4) -/

/-- A start sentinel in the sense of the scan loop of `sendCommand`. -/
def isStartFlag (b : Nat) : Prop :=
  b = StandardFrameStartFlag ∨ b = ExtendedFrameStartFlag

instance (b : Nat) : Decidable (isStartFlag b) := by
  unfold isStartFlag
  infer_instance

/-- Embeds the frame-boundary loop of `sendCommand` (pm5.go:121-132):
`i` is the index of the head of the remaining list inside the original
packet, `startIdx` the last start-sentinel index seen so far.  Every
start sentinel overwrites `startIdx`; the loop stops at the first stop
byte seen while `startIdx` is set. -/
def scanFrame : List Nat → Nat → Option Nat → Option (Nat × Nat)
  | [], _, _ => none
  | b :: rest, i, startIdx =>
    let s1 := if b = StandardFrameStartFlag ∨ b = ExtendedFrameStartFlag then some i else startIdx
    if b = StopFrameFlag ∧ s1.isSome then s1.map (fun s => (s, i))
    else scanFrame rest (i + 1) s1

/-- Embeds the extraction step of `sendCommand` (pm5.go:134-139):
`ErrInvalidResponse` when no frame boundary pair is found, else the
inclusive slice `data[startIdx : stopIdx+1]` that is handed to
`DecodeFrame`. -/
def extractFrame (data : List Nat) : Except PMErr (List Nat) :=
  match scanFrame data 0 none with
  | none => .error .invalidResponse
  | some (s, t) => .ok ((data.drop s).take (t + 1 - s))

/-- No start sentinel and no stop byte strictly between two indices. -/
def cleanBetween (data : List Nat) (lo hi : Nat) : Prop :=
  ∀ k, lo < k → k < hi → ¬ isStartFlag (data.getD k 0) ∧ data.getD k 0 ≠ StopFrameFlag

theorem scanFrame_spec_aux (data : List Nat) :
    ∀ fuel j acc s t, data.length ≤ j + fuel →
      (∀ a, acc = some a → a < j ∧ isStartFlag (data.getD a 0) ∧ cleanBetween data a j) →
      scanFrame (data.drop j) j acc = some (s, t) →
      isStartFlag (data.getD s 0) ∧ data.getD t 0 = StopFrameFlag ∧ s < t ∧
        cleanBetween data s t := by
  intro fuel
  induction fuel with
  | zero =>
    intro j acc s t hf hinv hscan
    rw [List.drop_eq_nil_of_le (by omega)] at hscan
    exact absurd hscan (by simp [scanFrame])
  | succ fuel ih =>
    intro j acc s t hf hinv hscan
    by_cases hj : j < data.length
    · have hdrop : data.drop j = data[j] :: data.drop (j + 1) := List.drop_eq_getElem_cons hj
      rw [hdrop] at hscan
      simp only [scanFrame] at hscan
      have hbD : data.getD j 0 = data[j] := List.getD_eq_getElem data 0 hj
      by_cases hstart : data[j] = StandardFrameStartFlag ∨ data[j] = ExtendedFrameStartFlag
      · rw [if_pos hstart] at hscan
        have hbstop : ¬ (data[j] = StopFrameFlag) := by
          rcases hstart with h | h <;> (rw [h]; decide)
        rw [if_neg (fun hc => hbstop hc.1)] at hscan
        apply ih (j + 1) (some j) s t (by omega) ?_ hscan
        intro a ha
        cases Option.some.inj ha
        refine ⟨by omega, by rw [hbD]; exact hstart, ?_⟩
        intro k hk1 hk2
        exact absurd hk2 (by omega)
      · rw [if_neg hstart] at hscan
        by_cases hstop : data[j] = StopFrameFlag
        · cases hacc : acc with
          | some a =>
            rw [hacc] at hscan
            rw [if_pos ⟨hstop, rfl⟩] at hscan
            simp at hscan
            obtain ⟨hs, ht⟩ := hscan
            obtain ⟨ha1, ha2, ha3⟩ := hinv a hacc
            subst hs
            subst ht
            exact ⟨ha2, by rw [hbD]; exact hstop, ha1, ha3⟩
          | none =>
            rw [hacc] at hscan
            rw [if_neg (fun hc => by simpa using hc.2)] at hscan
            apply ih (j + 1) none s t (by omega) ?_ hscan
            intro a ha
            exact absurd ha (by simp)
        · rw [if_neg (fun hc => hstop hc.1)] at hscan
          apply ih (j + 1) acc s t (by omega) ?_ hscan
          intro a ha
          obtain ⟨h1, h2, h3⟩ := hinv a ha
          refine ⟨by omega, h2, ?_⟩
          intro k hk1 hk2
          by_cases hkj : k = j
          · subst hkj
            rw [hbD]
            exact ⟨hstart, hstop⟩
          · exact h3 k hk1 (by omega)
    · rw [List.drop_eq_nil_of_le (by omega)] at hscan
      exact absurd hscan (by simp [scanFrame])

/-- C4 (amended): the scan keeps the LAST start sentinel seen, so when
`scanFrame` finds a pair `(s, t)`, position `s` holds a start sentinel,
position `t` holds the first stop byte that follows a start sentinel,
no start or stop byte lies strictly between them (hence `s` is the last
start sentinel before that stop, not the first in the packet), and the
engine decodes the inclusive slice `data[s : t+1]`; when no such pair
exists the engine fails with the malformed-response error
`ErrInvalidResponse`. -/
theorem C4_frame_extraction_scan :
    (∀ data s t, scanFrame data 0 none = some (s, t) →
      isStartFlag (data.getD s 0) ∧ data.getD t 0 = StopFrameFlag ∧ s < t ∧
        cleanBetween data s t ∧
        extractFrame data = .ok ((data.drop s).take (t + 1 - s))) ∧
    (∀ data, scanFrame data 0 none = none →
      extractFrame data = .error .invalidResponse) := by
  constructor
  · intro data s t h
    have h0 : scanFrame (data.drop 0) 0 none = some (s, t) := by
      rw [List.drop_zero]
      exact h
    have hs := scanFrame_spec_aux data data.length 0 none s t (by omega)
      (fun a ha => absurd ha (by simp)) h0
    refine ⟨hs.1, hs.2.1, hs.2.2.1, hs.2.2.2, ?_⟩
    rw [extractFrame, h]
  · intro data h
    rw [extractFrame, h]

/-- C4 counterexample: a packet with two start sentinels before the
first stop.  The claim says the decoded slice begins at the first start
sentinel (index 0); the scan actually keeps the last one, returning the
pair `(1, 3)` and the slice `[F1, 00, F2]` that omits the byte at
index 0 — which itself holds a start sentinel. -/
theorem C4_counterexample :
    scanFrame [0xF1, 0xF1, 0x00, 0xF2] 0 none = some (1, 3) ∧
    isStartFlag ([0xF1, 0xF1, 0x00, 0xF2].getD 0 0) ∧
    extractFrame [0xF1, 0xF1, 0x00, 0xF2] = .ok [0xF1, 0x00, 0xF2] ∧
    (1 : Nat) ≠ 0 :=
  ⟨rfl, Or.inl rfl, rfl, by decide⟩

/-- Witness for C4 (amended): a packet with one stray prefix byte; the
scan finds the start at index 1 and the stop at index 3 and the engine
slices `[F1, 12, F2]` inclusively. -/
theorem C4_witness :
    isStartFlag ([0x00, 0xF1, 0x12, 0xF2].getD 1 0) ∧
    ([0x00, 0xF1, 0x12, 0xF2].getD 3 0 = StopFrameFlag) ∧ (1 : Nat) < 3 ∧
    cleanBetween [0x00, 0xF1, 0x12, 0xF2] 1 3 ∧
    extractFrame [0x00, 0xF1, 0x12, 0xF2] = .ok [0xF1, 0x12, 0xF2] := by
  have h := C4_frame_extraction_scan.1 [0x00, 0xF1, 0x12, 0xF2] 1 3 rfl
  simpa using h

/-! ## Transaction engine: inter-frame gating (C8) -/

/-- Model of the inter-frame gating of `sendCommand` (pm5.go:86-90) on
a natural-number millisecond timeline: `elapsed = now - last` (Go's
`time.Since(p.lastCommand)` on the monotonic clock) and the sleep is
`interframeDur - elapsed` when `elapsed < interframeDur`, else zero
(no sleep branch taken). -/
def gateSleep (now last dur : Nat) : Nat :=
  if now - last < dur then dur - (now - last) else 0

/-- The instant the device write starts: the current instant plus the
gate sleep. -/
def writeStart (now last dur : Nat) : Nat :=
  now + gateSleep now last dur

/-- C8 (confirmed): when the elapsed time since the recorded-after-write
instant `last` is below the 50 ms gap, the exchange sleeps exactly the
remainder (an exchange issued 10 ms after the previous write waits
another 40 ms); and since `last` is recorded at or after the end of the
previous write, the next write starts at least 50 ms after that write
ended. -/
theorem C8_interframe_gap :
    (∀ now last, now - last < MinInterframeGapMs →
      gateSleep now last MinInterframeGapMs = MinInterframeGapMs - (now - last)) ∧
    gateSleep 110 100 MinInterframeGapMs = 40 ∧
    (∀ endWrite last now, endWrite ≤ last → last ≤ now →
      endWrite + MinInterframeGapMs ≤ writeStart now last MinInterframeGapMs) := by
  refine ⟨?_, rfl, ?_⟩
  · intro now last h
    rw [gateSleep, if_pos h]
  · intro endWrite last now h1 h2
    rw [writeStart, gateSleep]
    split
    · omega
    · omega

/-- Witness for C8: at `now = 110` with `last = 100` the sleep is the
exact remainder 40, and with the write ending at 100 the next write
starts no earlier than 150. -/
theorem C8_witness :
    gateSleep 110 100 MinInterframeGapMs = MinInterframeGapMs - (110 - 100) ∧
    100 + MinInterframeGapMs ≤ writeStart 110 100 MinInterframeGapMs :=
  ⟨C8_interframe_gap.1 110 100 (by decide),
    C8_interframe_gap.2.2 100 100 110 (by decide) (by decide)⟩

/-! ## Session lifecycle (C9) -/

/-- Models `Connect` (pm5.go:40): given the current `connected` flag and
whether the device `Open` would succeed, returns the new flag, whether
the call returns nil, and whether `Open` was invoked. -/
def Connect (connected openOk : Bool) : Bool × Bool × Bool :=
  if connected then (true, true, false)
  else if openOk then (true, true, true)
  else (false, false, true)

/-- Models `Disconnect` (pm5.go:57): given the current `connected` flag
and whether the device `Close` would succeed, returns the new flag,
whether the call returns nil, and whether `Close` was invoked. -/
def Disconnect (connected closeOk : Bool) : Bool × Bool × Bool :=
  if !connected then (false, true, false)
  else if closeOk then (false, true, true)
  else (true, false, true)

/-- C9 (confirmed): `Connect` on a connected session returns nil without
invoking `Open` and keeps the flag true; `Disconnect` on a disconnected
session returns nil without invoking `Close` and keeps the flag false;
after `Connect` on a disconnected session the flag equals exactly the
success of `Open` (which is invoked), and after `Disconnect` on a
connected session the flag is false exactly when `Close` succeeds
(which is invoked). -/
theorem C9_connect_disconnect_idempotent :
    (∀ r, Connect true r = (true, true, false)) ∧
    (∀ r, Disconnect false r = (false, true, false)) ∧
    (∀ r, (Connect false r).1 = r ∧ (Connect false r).2.2 = true) ∧
    (∀ r, (Disconnect true r).1 = !r ∧ (Disconnect true r).2.2 = true) := by
  refine ⟨?_, ?_, ?_, ?_⟩ <;> intro r <;> cases r <;> simp [Connect, Disconnect]

end Pm5
